import Mathlib

/-!
Verification of the ad-report-template renderer against its specification.

The repository's display layer lives in `template/js/main.js` (KPI formatting,
metric derivation, page rendering) and a chart module (`charts.js`).  JavaScript
numbers are modelled as rationals (`ℚ`); the special values `NaN`, `null` and
`undefined` that flow through the display helpers are modelled by the `JSVal`
type, and the non-finite results of unguarded arithmetic by `JSNum`.
-/

namespace AdReport

/-- Floor of a rational, computed executably as `num / den` with Euclidean
integer division (the divisor `den` is positive, so this is floor division). -/
def ratFloor (q : ℚ) : ℤ := q.num / (q.den : ℤ)

theorem ratFloor_eq_floor (q : ℚ) : ratFloor q = ⌊q⌋ := Rat.floor_def.symm

/-- JavaScript `Math.round`: round half toward positive infinity. -/
def jsRound (q : ℚ) : ℤ := ratFloor (q + 1 / 2)

theorem jsRound_eq_floor_add_half (q : ℚ) : jsRound q = ⌊q + 1 / 2⌋ := by
  rw [jsRound, ratFloor_eq_floor]

/-- Evaluation helper: `ratFloor q = z` follows from the two bounding
inequalities, which `norm_num` can check on concrete rationals. -/
theorem ratFloor_eval {q : ℚ} {z : ℤ} (h1 : (z : ℚ) ≤ q) (h2 : q < z + 1) :
    ratFloor q = z := by
  rw [ratFloor_eq_floor]
  exact Int.floor_eq_iff.mpr ⟨h1, h2⟩

/-- `calcCTR(clicks, impressions)` from `main.js`: guarded click-through rate. -/
def calcCTR (clicks impressions : ℚ) : ℚ :=
  if impressions = 0 then 0 else clicks / impressions * 100

/-- `calcCVR(conversions, clicks)` from `main.js`: guarded conversion rate. -/
def calcCVR (conversions clicks : ℚ) : ℚ :=
  if clicks = 0 then 0 else conversions / clicks * 100

/-- `calcCPC(cost, clicks)` from `main.js`: guarded rounded cost per click. -/
def calcCPC (cost clicks : ℚ) : ℚ :=
  if clicks = 0 then 0 else (jsRound (cost / clicks) : ℚ)

/-- `calcCPM(cost, impressions)` from `main.js`: guarded rounded cost per mille. -/
def calcCPM (cost impressions : ℚ) : ℚ :=
  if impressions = 0 then 0 else (jsRound (cost / impressions * 1000) : ℚ)

/-- `calcCPA(cost, conversions)` from `main.js`: guarded rounded cost per acquisition. -/
def calcCPA (cost conversions : ℚ) : ℚ :=
  if conversions = 0 then 0 else (jsRound (cost / conversions) : ℚ)

/-- `calcChange(current, previous)` from `main.js`.  The JS guard
`if (!previous) return null` fires when `previous` is `undefined`/`null`
(modelled `none`) or `0`, so the result is `none` in exactly those cases. -/
def calcChange (current : ℚ) (previous : Option ℚ) : Option ℚ :=
  match previous with
  | none => none
  | some p => if p = 0 then none else some ((current - p) / p * 100)

/-- C1: with a nonzero denominator the derived-metric functions compute exactly
the spec formulas — `calcCTR = clicks/impressions*100`,
`calcCVR = conversions/clicks*100`, `calcCPC = round(cost/clicks)`,
`calcCPM = round(cost/impressions*1000)`, `calcCPA = round(cost/conversions)`
(rounding half up, i.e. `⌊x + 1/2⌋`) — and on the spec scenario's counters
`cost = 2500, impressions = 22000, clicks = 220, conversions = 11` they yield
CTR = 1.0, CVR = 5 and CPA = 227. -/
theorem c1_metric_formulas :
    (∀ clicks impressions : ℚ, impressions ≠ 0 →
      calcCTR clicks impressions = clicks / impressions * 100) ∧
    (∀ conversions clicks : ℚ, clicks ≠ 0 →
      calcCVR conversions clicks = conversions / clicks * 100) ∧
    (∀ cost clicks : ℚ, clicks ≠ 0 →
      calcCPC cost clicks = (⌊cost / clicks + 1 / 2⌋ : ℚ)) ∧
    (∀ cost impressions : ℚ, impressions ≠ 0 →
      calcCPM cost impressions = (⌊cost / impressions * 1000 + 1 / 2⌋ : ℚ)) ∧
    (∀ cost conversions : ℚ, conversions ≠ 0 →
      calcCPA cost conversions = (⌊cost / conversions + 1 / 2⌋ : ℚ)) ∧
    calcCTR 220 22000 = 1 ∧ calcCVR 11 220 = 5 ∧ calcCPA 2500 11 = 227 := by
  have h227 : ratFloor (5011 / 22) = 227 := ratFloor_eval (by norm_num) (by norm_num)
  refine ⟨?_, ?_, ?_, ?_, ?_, by norm_num [calcCTR], by norm_num [calcCVR],
    by norm_num [calcCPA, jsRound, h227]⟩
  · intro c i h; simp [calcCTR, h]
  · intro v c h; simp [calcCVR, h]
  · intro x c h; simp [calcCPC, h, jsRound_eq_floor_add_half]
  · intro x i h; simp [calcCPM, h, jsRound_eq_floor_add_half]
  · intro x v h; simp [calcCPA, h, jsRound_eq_floor_add_half]

/-- Closed-form instance of `c1_metric_formulas`, discharging its hypotheses at
concrete inputs. -/
theorem c1_metric_formulas_witness :
    calcCTR 3 4 = 3 / 4 * 100 ∧ calcCPA 10 3 = (⌊(10 : ℚ) / 3 + 1 / 2⌋ : ℚ) :=
  ⟨c1_metric_formulas.1 3 4 (by norm_num),
   (c1_metric_formulas.2.2.2.2.1) 10 3 (by norm_num)⟩

/-- C2: each derived-metric function returns exactly `0` whenever its
denominator is `0` (the functions return a rational, so the result is a number,
not NaN/infinity/null); in particular `calcCTR 0 0 = 0`. -/
theorem c2_zero_denominator_yields_zero :
    (∀ clicks : ℚ, calcCTR clicks 0 = 0) ∧
    (∀ conversions : ℚ, calcCVR conversions 0 = 0) ∧
    (∀ cost : ℚ, calcCPC cost 0 = 0) ∧
    (∀ cost : ℚ, calcCPM cost 0 = 0) ∧
    (∀ cost : ℚ, calcCPA cost 0 = 0) ∧
    calcCTR 0 0 = 0 := by
  refine ⟨?_, ?_, ?_, ?_, ?_, ?_⟩ <;>
    simp [calcCTR, calcCVR, calcCPC, calcCPM, calcCPA]

/-- JavaScript display values flowing through the formatters of `main.js`:
finite numbers, `NaN`, `null` and `undefined`. -/
inductive JSVal where
  | num : ℚ → JSVal
  | nan : JSVal
  | null : JSVal
  | undef : JSVal
deriving DecidableEq

/-- Decimal digit character for `d % 10`. -/
def digitChar (d : ℕ) : Char :=
  match d % 10 with
  | 0 => '0' | 1 => '1' | 2 => '2' | 3 => '3' | 4 => '4'
  | 5 => '5' | 6 => '6' | 7 => '7' | 8 => '8' | _ => '9'

/-- Decimal digit characters of a natural number (auxiliary, fuelled so that it
is structurally recursive and kernel-computable). -/
def natCharsAux : ℕ → ℕ → List Char
  | 0, _ => []
  | fuel + 1, n =>
    if n < 10 then [digitChar n] else natCharsAux fuel (n / 10) ++ [digitChar (n % 10)]

/-- Decimal digit characters of a natural number, most significant first. -/
def natChars (n : ℕ) : List Char := natCharsAux (n + 1) n

/-- Insert a thousands separator after every three characters of a reversed
digit list, as `Intl.NumberFormat` grouping does (fuelled so that it is
structurally recursive and kernel-computable). -/
def group3RevAux : ℕ → List Char → List Char
  | 0, l => l
  | fuel + 1, a :: b :: c :: d :: rest => a :: b :: c :: ',' :: group3RevAux fuel (d :: rest)
  | _ + 1, [] => []
  | _ + 1, [a] => [a]
  | _ + 1, [a, b] => [a, b]
  | _ + 1, [a, b, c] => [a, b, c]

/-- Insert a thousands separator after every three characters of a reversed
digit list. -/
def group3Rev (l : List Char) : List Char := group3RevAux l.length l

/-- Group a digit list with thousands separators (`1234` ↦ `1,234`). -/
def groupDigits (ds : List Char) : List Char := (group3Rev ds.reverse).reverse

/-- Left-pad a digit list with zeros to the given width. -/
def padZeros (w : ℕ) (ds : List Char) : List Char :=
  List.replicate (w - ds.length) '0' ++ ds

/-- Drop trailing `'0'` characters (fraction-digit trimming of
`Intl.NumberFormat` with `minimumFractionDigits = 0`). -/
def trimTrailingZeros (ds : List Char) : List Char :=
  (ds.reverse.dropWhile (fun c => c == '0')).reverse

/-- Body of `Intl.NumberFormat('ja-JP').format` applied to a non-negative value
already scaled by `10^3` and rounded: grouped integer digits, then the trimmed
fraction digits if any remain. -/
def intlBody (scaled : ℕ) : List Char :=
  groupDigits (natChars (scaled / 1000)) ++
    (let fd := trimTrailingZeros (padZeros 3 (natChars (scaled % 1000)))
     if fd = [] then [] else '.' :: fd)

/-- `Intl.NumberFormat('ja-JP').format` on a finite number: sign, thousands
grouping, and at most three fraction digits rounded half away from zero. -/
def intlNumberFormatJaJP (v : ℚ) : String :=
  String.mk ((if v < 0 then ['-'] else []) ++
    intlBody (ratFloor (|v| * 1000 + 1 / 2)).toNat)

/-- The digits of `n` rendered with `digits` fraction places
(`ECMAScript Number.prototype.toFixed` body, after scaling and rounding). -/
def natFixedChars (digits n : ℕ) : List Char :=
  if digits = 0 then natChars n
  else natChars (n / 10 ^ digits) ++ '.' :: padZeros digits (natChars (n % 10 ^ digits))

/-- `Number.prototype.toFixed` on a non-negative finite number. -/
def jsToFixedNonneg (digits : ℕ) (a : ℚ) : String :=
  String.mk (natFixedChars digits (ratFloor (a * 10 ^ digits + 1 / 2)).toNat)

/-- `Number.prototype.toFixed` on a finite number: negate first, round the
scaled magnitude half up, then re-attach the sign (per the ECMAScript spec). -/
def jsToFixed (digits : ℕ) (v : ℚ) : String :=
  if v < 0 then "-" ++ jsToFixedNonneg digits (-v) else jsToFixedNonneg digits v

/-- `Intl.NumberFormat('ja-JP').format` on a JS value, including the implicit
`ToNumber` coercion the built-in applies (`null ↦ 0`, `undefined ↦ NaN`). -/
def intlFormatVal : JSVal → String
  | .num q => intlNumberFormatJaJP q
  | .nan => "NaN"
  | .null => intlNumberFormatJaJP 0
  | .undef => "NaN"

/-- `toFixed` on a JS value.  The `.null`/`.undef` branches are unreachable
behind the null guards of the formatters below; they follow the same
`ToNumber` coercion for totality. -/
def toFixedVal (digits : ℕ) : JSVal → String
  | .num q => jsToFixed digits q
  | .nan => "NaN"
  | .null => jsToFixed digits 0
  | .undef => "NaN"

/-- `formatNumber` from `main.js`: null guard, then `Intl` formatting. -/
def formatNumber (value : JSVal) : String :=
  if value = .null ∨ value = .undef then "-" else intlFormatVal value

/-- `formatCurrency` from `main.js`: null guard, then a yen sign and
`formatNumber`. -/
def formatCurrency (value : JSVal) : String :=
  if value = .null ∨ value = .undef then "-" else "¥" ++ formatNumber value

/-- `formatPercent` from `main.js` (the `decimals` parameter defaults to `2` at
its call sites): null guard, then `toFixed` and a percent sign. -/
def formatPercent (value : JSVal) (decimals : ℕ) : String :=
  if value = .null ∨ value = .undef then "-" else toFixedVal decimals value ++ "%"

/-- `formatChange` from `main.js`: null guard, an explicit `+` sign for
positive values, then `toFixed(1)` and a percent sign. -/
def formatChange (value : JSVal) : String :=
  if value = .null ∨ value = .undef then "-"
  else
    (match value with
     | .num q => if 0 < q then "+" else ""
     | _ => "") ++ toFixedVal 1 value ++ "%"

/-- `getChangeClass` from `main.js` (comparisons with `NaN`, `null` or
`undefined` are false in JS, giving the `neutral` fallthrough). -/
def getChangeClass : JSVal → String
  | .num q => if 0 < q then "positive" else if q < 0 then "negative" else "neutral"
  | _ => "neutral"

/-- `getChangeIcon` from `main.js`. -/
def getChangeIcon : JSVal → String
  | .num q => if 0 < q then "↑" else if q < 0 then "↓" else ""
  | _ => ""

/-- `getChangeClassInverse` from `main.js`: the colour classes with positive
and negative swapped, for lower-is-better metrics. -/
def getChangeClassInverse : JSVal → String
  | .num q => if 0 < q then "negative" else if q < 0 then "positive" else "neutral"
  | _ => "neutral"

/-- `buildChangeHTML` from `main.js`. -/
def buildChangeHTML (value : JSVal) (inverse : Bool) : String :=
  if value = .null ∨ value = .undef then
    "<div class=\"kpi-change neutral\"><span>-</span></div>"
  else
    let cls := if inverse then getChangeClassInverse value else getChangeClass value
    let icon := getChangeIcon value
    "<div class=\"kpi-change " ++ cls ++ "\">" ++
      (if icon = "" then "" else "<span class=\"kpi-change-icon\">" ++ icon ++ "</span>") ++
      "<span>" ++ formatChange value ++ "</span></div>"

/-- `formatNumber` from the chart module (`charts.js`): the same `Intl` call,
with no null guard. -/
def chartFormatNumber (value : JSVal) : String := intlFormatVal value

/-- `formatCurrency` from the chart module (`charts.js`). -/
def chartFormatCurrency (value : JSVal) : String := "¥" ++ chartFormatNumber value

theorem natCharsAux_ne_nil (fuel n : ℕ) : natCharsAux (fuel + 1) n ≠ [] := by
  rw [natCharsAux]
  split
  · simp
  · simp

theorem natChars_ne_nil (n : ℕ) : natChars n ≠ [] := natCharsAux_ne_nil n n

theorem mem_natCharsAux {fuel n : ℕ} {c : Char} (h : c ∈ natCharsAux fuel n) :
    ∃ d, c = digitChar d := by
  induction fuel generalizing n with
  | zero => simp [natCharsAux] at h
  | succ fuel ih =>
    rw [natCharsAux] at h
    split at h
    · exact ⟨n, by simpa using h⟩
    · rcases List.mem_append.mp h with h' | h'
      · exact ih h'
      · exact ⟨n % 10, by simpa using h'⟩

theorem digitChar_ne_of_not_digit {c : Char}
    (hc : c ∉ ['0', '1', '2', '3', '4', '5', '6', '7', '8', '9']) (d : ℕ) :
    digitChar d ≠ c := by
  intro h
  apply hc
  rw [← h]
  unfold digitChar
  split <;> simp

theorem mem_group3RevAux {fuel : ℕ} {l : List Char} {c : Char}
    (h : c ∈ group3RevAux fuel l) : c ∈ l ∨ c = ',' := by
  induction fuel generalizing l with
  | zero => rw [group3RevAux] at h; exact Or.inl h
  | succ fuel ih =>
    match l with
    | a :: b :: d :: e :: rest =>
      rw [group3RevAux] at h
      simp only [List.mem_cons] at h
      rcases h with h | h | h | h | h
      · exact Or.inl (by simp [h])
      · exact Or.inl (by simp [h])
      · exact Or.inl (by simp [h])
      · exact Or.inr h
      · rcases ih h with h' | h'
        · exact Or.inl (by simp only [List.mem_cons] at h' ⊢; tauto)
        · exact Or.inr h'
    | [] => rw [group3RevAux] at h; exact Or.inl h
    | [a] => rw [group3RevAux] at h; exact Or.inl h
    | [a, b] => rw [group3RevAux] at h; exact Or.inl h
    | [a, b, d] => rw [group3RevAux] at h; exact Or.inl h

theorem group3RevAux_ne_nil {fuel : ℕ} {l : List Char} (h : l ≠ []) :
    group3RevAux fuel l ≠ [] := by
  match fuel, l with
  | 0, l => rw [group3RevAux]; exact h
  | fuel + 1, a :: b :: d :: e :: rest => rw [group3RevAux]; simp
  | fuel + 1, [] => exact absurd rfl h
  | fuel + 1, [a] => rw [group3RevAux]; simp
  | fuel + 1, [a, b] => rw [group3RevAux]; simp
  | fuel + 1, [a, b, d] => rw [group3RevAux]; simp

theorem mem_groupDigits {ds : List Char} {c : Char} (h : c ∈ groupDigits ds) :
    c ∈ ds ∨ c = ',' := by
  rw [groupDigits, List.mem_reverse] at h
  rcases mem_group3RevAux h with h' | h'
  · exact Or.inl (List.mem_reverse.mp h')
  · exact Or.inr h'

theorem groupDigits_ne_nil {ds : List Char} (h : ds ≠ []) : groupDigits ds ≠ [] := by
  rw [groupDigits]
  simp only [ne_eq, List.reverse_eq_nil_iff]
  exact group3RevAux_ne_nil (by simpa using h)

theorem mem_trimTrailingZeros {ds : List Char} {c : Char}
    (h : c ∈ trimTrailingZeros ds) : c ∈ ds := by
  rw [trimTrailingZeros, List.mem_reverse] at h
  exact List.mem_reverse.mp ((List.dropWhile_sublist _).subset h)

theorem mem_padZeros {w : ℕ} {ds : List Char} {c : Char} (h : c ∈ padZeros w ds) :
    c = '0' ∨ c ∈ ds := by
  rw [padZeros] at h
  rcases List.mem_append.mp h with h' | h'
  · exact Or.inl (List.eq_of_mem_replicate h')
  · exact Or.inr h'

/-- The characters `Intl` formatting can emit for a finite value are digits,
the separators `','` and `'.'`, and a leading `'-'`; in particular the dash
never occurs in the body. -/
theorem intlBody_not_mem_dash (scaled : ℕ) : '-' ∉ intlBody scaled := by
  intro h
  rw [intlBody] at h
  rcases List.mem_append.mp h with h' | h'
  · rcases mem_groupDigits h' with h'' | h''
    · obtain ⟨d, hd⟩ := mem_natCharsAux h''
      exact digitChar_ne_of_not_digit (by decide) d hd.symm
    · exact absurd h'' (by decide)
  · simp only at h'
    split at h'
    · simp at h'
    · rcases List.mem_cons.mp h' with h'' | h''
      · exact absurd h'' (by decide)
      · rcases mem_padZeros (mem_trimTrailingZeros h'') with h3 | h3
        · exact absurd h3 (by decide)
        · obtain ⟨d, hd⟩ := mem_natCharsAux h3
          exact digitChar_ne_of_not_digit (by decide) d hd.symm

theorem intlBody_ne_nil (scaled : ℕ) : intlBody scaled ≠ [] := by
  rw [intlBody]
  simp only [ne_eq, List.append_eq_nil]
  intro ⟨h1, _⟩
  exact groupDigits_ne_nil (natChars_ne_nil _) h1

/-- `Intl.NumberFormat('ja-JP').format` never yields the bare placeholder
string `"-"` on a finite number. -/
theorem intlNumberFormatJaJP_ne_dash (q : ℚ) : intlNumberFormatJaJP q ≠ "-" := by
  intro h
  rw [intlNumberFormatJaJP] at h
  have hdata : ((if q < 0 then ['-'] else []) ++
      intlBody (ratFloor (|q| * 1000 + 1 / 2)).toNat) = ['-'] := by
    have := congrArg String.data h
    simpa using this
  split at hdata
  · have hnil : intlBody (ratFloor (|q| * 1000 + 1 / 2)).toNat = [] := by
      simpa using hdata
    exact intlBody_ne_nil _ hnil
  · simp only [List.nil_append] at hdata
    exact intlBody_not_mem_dash _ (by rw [hdata]; simp)

/-- Any string with `"%"` appended differs from the placeholder `"-"`. -/
theorem append_percent_ne_dash (s : String) : s ++ "%" ≠ "-" := by
  intro h
  have hdata : s.data ++ ['%'] = ['-'] := by
    have := congrArg String.data h
    simpa using this
  have hlen := congrArg List.length hdata
  simp only [List.length_append, List.length_cons, List.length_nil] at hlen
  have hnil : s.data = [] := List.eq_nil_of_length_eq_zero (by omega)
  rw [hnil] at hdata
  simp at hdata

theorem yen_prepend_ne_dash (s : String) : "¥" ++ s ≠ "-" := by
  intro h
  have hd := congrArg String.data h
  simp at hd

/-- C8: the four display formatters of `main.js` map a missing value (`null`
or `undefined`) to the placeholder `"-"`, and never produce `"-"` for an
actual number. -/
theorem c8_formatters_missing_to_placeholder :
    (formatNumber .null = "-" ∧ formatNumber .undef = "-" ∧
      ∀ q : ℚ, formatNumber (.num q) ≠ "-") ∧
    (formatCurrency .null = "-" ∧ formatCurrency .undef = "-" ∧
      ∀ q : ℚ, formatCurrency (.num q) ≠ "-") ∧
    ((∀ decimals : ℕ, formatPercent .null decimals = "-" ∧
        formatPercent .undef decimals = "-") ∧
      ∀ (decimals : ℕ) (q : ℚ), formatPercent (.num q) decimals ≠ "-") ∧
    (formatChange .null = "-" ∧ formatChange .undef = "-" ∧
      ∀ q : ℚ, formatChange (.num q) ≠ "-") := by
  refine ⟨⟨rfl, rfl, ?_⟩, ⟨rfl, rfl, ?_⟩, ⟨fun d => ⟨rfl, rfl⟩, ?_⟩, ⟨rfl, rfl, ?_⟩⟩
  · intro q
    simp only [formatNumber]
    rw [if_neg (by simp)]
    exact intlNumberFormatJaJP_ne_dash q
  · intro q
    simp only [formatCurrency]
    rw [if_neg (by simp)]
    exact yen_prepend_ne_dash _
  · intro d q
    simp only [formatPercent]
    rw [if_neg (by simp)]
    exact append_percent_ne_dash _
  · intro q
    simp only [formatChange]
    rw [if_neg (by simp)]
    exact append_percent_ne_dash _

/-- C9: the chart module's `formatNumber`/`formatCurrency` agree with the main
module's on every actual number, but diverge on `null` and `undefined`: the
main versions return the placeholder `"-"`, while the chart versions (with no
null guard) return `"0"`, `"NaN"`, `"¥0"`, `"¥NaN"` — never `"-"`. -/
theorem c9_chart_vs_main_formatters :
    (∀ q : ℚ, formatNumber (.num q) = chartFormatNumber (.num q)) ∧
    (∀ q : ℚ, formatCurrency (.num q) = chartFormatCurrency (.num q)) ∧
    formatNumber .null = "-" ∧ formatNumber .undef = "-" ∧
    formatCurrency .null = "-" ∧ formatCurrency .undef = "-" ∧
    chartFormatNumber .null = "0" ∧ chartFormatNumber .undef = "NaN" ∧
    chartFormatCurrency .null = "¥0" ∧ chartFormatCurrency .undef = "¥NaN" := by
  have h0 : ratFloor (|(0 : ℚ)| * 1000 + 1 / 2) = 0 :=
    ratFloor_eval (by norm_num) (by norm_num)
  have hintl : intlNumberFormatJaJP 0 = "0" := by
    have hn : ¬ (0 : ℚ) < 0 := by norm_num
    simp only [intlNumberFormatJaJP, h0, hn, if_false]
    decide
  have hnum : chartFormatNumber .null = "0" := by
    simp only [chartFormatNumber, intlFormatVal, hintl]
  have hq : ∀ q : ℚ, formatNumber (.num q) = chartFormatNumber (.num q) := by
    intro q
    simp only [formatNumber, chartFormatNumber]
    rw [if_neg (by simp)]
  refine ⟨hq, ?_, rfl, rfl, rfl, rfl, hnum, rfl, ?_, by decide⟩
  · intro q
    simp only [formatCurrency, chartFormatCurrency]
    rw [if_neg (by simp), hq q]
  · simp only [chartFormatCurrency, hnum]
    decide

/-- C4: a null change is never displayed as zero — for `null` or `undefined`,
`buildChangeHTML` renders the neutral placeholder `"-"` (and `formatChange`
returns `"-"`), while the change value `0` renders as `"0.0%"`; the two
rendered outputs are distinct. -/
theorem c4_null_change_placeholder :
    (∀ inverse : Bool, buildChangeHTML .null inverse =
      "<div class=\"kpi-change neutral\"><span>-</span></div>") ∧
    (∀ inverse : Bool, buildChangeHTML .undef inverse =
      "<div class=\"kpi-change neutral\"><span>-</span></div>") ∧
    formatChange .null = "-" ∧ formatChange .undef = "-" ∧
    formatChange (.num 0) = "0.0%" ∧
    (∀ inverse : Bool, buildChangeHTML (.num 0) inverse ≠
      buildChangeHTML .null inverse) := by
  have hfix : ratFloor ((0 : ℚ) * 10 ^ 1 + 1 / 2) = 0 :=
    ratFloor_eval (by norm_num) (by norm_num)
  have hfc : formatChange (.num 0) = "0.0%" := by
    simp only [formatChange, toFixedVal, jsToFixed, jsToFixedNonneg, hfix]
    norm_num
    decide
  refine ⟨fun _ => rfl, fun _ => rfl, rfl, rfl, hfc, ?_⟩
  intro inverse
  have hnull : buildChangeHTML .null inverse =
      "<div class=\"kpi-change neutral\"><span>-</span></div>" := rfl
  rw [hnull]
  simp only [buildChangeHTML, hfc]
  rw [if_neg (by simp)]
  cases inverse <;> decide

/-- Raw additive counters of the Dataset (`{cost, impressions, clicks,
conversions}`). -/
structure Counters where
  cost : ℚ
  impressions : ℚ
  clicks : ℚ
  conversions : ℚ
deriving DecidableEq

/-- The `previousMonthChange` map read by `renderMonthlyPage` (after the JS
`monthData.previousMonthChange || {}` fallback, each field is a number, `null`
or `undefined`). -/
structure Changes where
  cost : JSVal
  impressions : JSVal
  clicks : JSVal
  conversions : JSVal
  ctr : JSVal
  cvr : JSVal
  cpc : JSVal
  cpa : JSVal

/-- One KPI card as assembled by `buildKPICard(label, value, change, inverse)`
(`inverse` is `undefined`, hence falsy, when the call site omits it). -/
structure KPICard where
  label : String
  value : String
  change : JSVal
  inverse : Bool

/-- The eight monthly KPI cards exactly as `renderMonthlyPage` builds them
(`main.js` lines 319–327): `inverse` is passed as `true` only for the CPC and
CPA cards. -/
def monthlyKPICards (s : Counters) (chg : Changes) : List KPICard :=
  [⟨"広告費用", formatCurrency (.num s.cost), chg.cost, false⟩,
   ⟨"表示回数", formatNumber (.num s.impressions), chg.impressions, false⟩,
   ⟨"クリック数", formatNumber (.num s.clicks), chg.clicks, false⟩,
   ⟨"CV", formatNumber (.num s.conversions), chg.conversions, false⟩,
   ⟨"CTR", formatPercent (.num (calcCTR s.clicks s.impressions)) 2, chg.ctr, false⟩,
   ⟨"CVR", formatPercent (.num (calcCVR s.conversions s.clicks)) 2, chg.cvr, false⟩,
   ⟨"CPC", formatCurrency (.num (calcCPC s.cost s.clicks)), chg.cpc, true⟩,
   ⟨"CPA", formatCurrency (.num (calcCPA s.cost s.conversions)), chg.cpa, true⟩]

/-- Swap the `positive` and `negative` colour classes, fixing everything else. -/
def swapPosNeg (s : String) : String :=
  if s = "positive" then "negative" else if s = "negative" then "positive" else s

/-- C5: the monthly KPI cards pass `inverse = true` exactly for the CPC and
CPA cards; for every nonzero value `getChangeClassInverse` is the
positive/negative swap of `getChangeClass`; and both classes are `neutral`
exactly at zero. -/
theorem c5_inverse_polarity :
    (∀ (s : Counters) (chg : Changes), ∀ card ∈ monthlyKPICards s chg,
      (card.inverse = true ↔ (card.label = "CPC" ∨ card.label = "CPA"))) ∧
    (∀ v : ℚ, v ≠ 0 →
      getChangeClassInverse (.num v) = swapPosNeg (getChangeClass (.num v))) ∧
    (∀ v : ℚ, (getChangeClass (.num v) = "neutral" ↔ v = 0) ∧
      (getChangeClassInverse (.num v) = "neutral" ↔ v = 0)) := by
  refine ⟨?_, ?_, ?_⟩
  · intro s chg card hcard
    simp only [monthlyKPICards, List.mem_cons, List.not_mem_nil, or_false] at hcard
    rcases hcard with h | h | h | h | h | h | h | h <;> subst h <;> simp
  · intro v hv
    rcases lt_trichotomy v 0 with h | h | h
    · rw [getChangeClassInverse, getChangeClass, if_neg (by linarith), if_pos h,
        if_neg (by linarith), if_pos h]
      decide
    · exact absurd h hv
    · rw [getChangeClassInverse, getChangeClass, if_pos h, if_pos h]
      decide
  · intro v
    constructor
    · rw [getChangeClass]
      rcases lt_trichotomy v 0 with h | h | h
      · rw [if_neg (by linarith), if_pos h]
        constructor
        · intro hs; exact absurd hs (by decide)
        · intro h0; exact absurd h0 (by linarith)
      · subst h; simp
      · rw [if_pos h]
        constructor
        · intro hs; exact absurd hs (by decide)
        · intro h0; exact absurd h0 (by linarith)
    · rw [getChangeClassInverse]
      rcases lt_trichotomy v 0 with h | h | h
      · rw [if_neg (by linarith), if_pos h]
        constructor
        · intro hs; exact absurd hs (by decide)
        · intro h0; exact absurd h0 (by linarith)
      · subst h; simp
      · rw [if_pos h]
        constructor
        · intro hs; exact absurd hs (by decide)
        · intro h0; exact absurd h0 (by linarith)

/-- Closed-form instance of `c5_inverse_polarity`: the CPA card of a concrete
month carries `inverse = true`, and the class swap holds at `v = 5`. -/
theorem c5_inverse_polarity_witness :
    (⟨"CPA", formatCurrency (.num (calcCPA 2500 11)), JSVal.null, true⟩ : KPICard).inverse
      = true ∧
    getChangeClassInverse (.num 5) = swapPosNeg (getChangeClass (.num 5)) := by
  constructor
  · exact (c5_inverse_polarity.1 ⟨2500, 22000, 220, 11⟩
      ⟨.null, .null, .null, .null, .null, .null, .null, .null⟩
      ⟨"CPA", formatCurrency (.num (calcCPA 2500 11)), JSVal.null, true⟩
      (by simp [monthlyKPICards])).mpr (Or.inr rfl)
  · exact c5_inverse_polarity.2.1 5 (by norm_num)

/-- JavaScript string comparison (`<` as used by `Object.keys(...).sort()`):
lexicographic comparison of code-unit sequences. -/
def jsLtCodes : List ℕ → List ℕ → Bool
  | [], [] => false
  | [], _ :: _ => true
  | _ :: _, [] => false
  | a :: as, b :: bs =>
    if a < b then true else if b < a then false else jsLtCodes as bs

/-- Code units of the decimal digits of `n` (auxiliary, fuelled). -/
def natCodesAux : ℕ → ℕ → List ℕ
  | 0, _ => []
  | fuel + 1, n =>
    if n < 10 then [48 + n] else natCodesAux fuel (n / 10) ++ [48 + n % 10]

/-- Code units of the decimal digit string of `n` (48 is the code of `'0'`). -/
def natCodes (n : ℕ) : List ℕ := natCodesAux (n + 1) n

theorem natCodes_lt_ten {n : ℕ} (h : n < 10) : natCodes n = [48 + n] := by
  simp [natCodes, natCodesAux, h]

theorem jsLtCodes_nil : jsLtCodes [] [] = false := rfl

theorem jsLtCodes_cons_iff (a b : ℕ) (as bs : List ℕ) :
    jsLtCodes (a :: as) (b :: bs) = true ↔
      a < b ∨ (a = b ∧ jsLtCodes as bs = true) := by
  rw [jsLtCodes]
  split_ifs with h1 h2
  · simp [h1]
  · simp only [Bool.false_eq_true, false_iff]
    rintro (h | ⟨h, _⟩) <;> omega
  · have hab : a = b := by omega
    simp [hab]

/-- Code units of the seven-character MonthKey string `"YYYY-MM"` for a
four-digit year and a zero-padded two-digit month (45 is the code of `'-'`). -/
def monthKeyCodes (y m : ℕ) : List ℕ :=
  [48 + y / 1000 % 10, 48 + y / 100 % 10, 48 + y / 10 % 10, 48 + y % 10,
   45, 48 + m / 10 % 10, 48 + m % 10]

/-- Code units of the WeekKey string `"week"` followed by the decimal index
(119, 101, 101, 107 spell `week`). -/
def weekKeyCodes (i : ℕ) : List ℕ := [119, 101, 101, 107] ++ natCodes i

/-- C6: for month keys `"YYYY-MM"` the JS lexicographic string order is
exactly chronological order, and for week keys `"week1"` … `"week6"` (at most
six week buckets fit in one calendar month) it is exactly numeric index
order. -/
theorem c6_lex_order_is_chronological :
    (∀ y1 m1 y2 m2 : ℕ, 1000 ≤ y1 → y1 ≤ 9999 → 1000 ≤ y2 → y2 ≤ 9999 →
      1 ≤ m1 → m1 ≤ 12 → 1 ≤ m2 → m2 ≤ 12 →
      (jsLtCodes (monthKeyCodes y1 m1) (monthKeyCodes y2 m2) = true ↔
        (y1 < y2 ∨ (y1 = y2 ∧ m1 < m2)))) ∧
    (∀ i j : ℕ, 1 ≤ i → i ≤ 6 → 1 ≤ j → j ≤ 6 →
      (jsLtCodes (weekKeyCodes i) (weekKeyCodes j) = true ↔ i < j)) := by
  constructor
  · intro y1 m1 y2 m2 hy1 hy1' hy2 hy2' hm1 hm1' hm2 hm2'
    have c11 : y1 / 10 / 10 = y1 / 100 := by rw [Nat.div_div_eq_div_mul]
    have c12 : y1 / 100 / 10 = y1 / 1000 := by rw [Nat.div_div_eq_div_mul]
    have c21 : y2 / 10 / 10 = y2 / 100 := by rw [Nat.div_div_eq_div_mul]
    have c22 : y2 / 100 / 10 = y2 / 1000 := by rw [Nat.div_div_eq_div_mul]
    have s1 : y1 = 1000 * (y1 / 1000) + 100 * (y1 / 100 % 10) +
        10 * (y1 / 10 % 10) + y1 % 10 := by omega
    have s2 : y2 = 1000 * (y2 / 1000) + 100 * (y2 / 100 % 10) +
        10 * (y2 / 10 % 10) + y2 % 10 := by omega
    have t1 : y1 / 1000 % 10 = y1 / 1000 := Nat.mod_eq_of_lt (by omega)
    have t2 : y2 / 1000 % 10 = y2 / 1000 := Nat.mod_eq_of_lt (by omega)
    simp only [monthKeyCodes, jsLtCodes_cons_iff, jsLtCodes_nil,
      Bool.false_eq_true, and_false, or_false, lt_self_iff_false, false_or,
      true_and, t1, t2]
    omega
  · intro i j hi hi' hj hj'
    rw [weekKeyCodes, weekKeyCodes, natCodes_lt_ten (show i < 10 by omega),
      natCodes_lt_ten (show j < 10 by omega)]
    simp only [List.cons_append, List.nil_append, jsLtCodes_cons_iff,
      jsLtCodes_nil, Bool.false_eq_true, and_false, or_false,
      lt_self_iff_false, false_or, true_and]
    omega

/-- Closed-form instance of `c6_lex_order_is_chronological`: the year boundary
month pair 2024-09 < 2024-10 and the week pair week2 < week3. -/
theorem c6_lex_order_is_chronological_witness :
    jsLtCodes (monthKeyCodes 2024 9) (monthKeyCodes 2024 10) = true ∧
    jsLtCodes (weekKeyCodes 2) (weekKeyCodes 3) = true := by
  constructor
  · exact (c6_lex_order_is_chronological.1 2024 9 2024 10 (by norm_num) (by norm_num)
      (by norm_num) (by norm_num) (by norm_num) (by norm_num) (by norm_num)
      (by norm_num)).mpr (Or.inr ⟨rfl, by norm_num⟩)
  · exact (c6_lex_order_is_chronological.2 2 3 (by norm_num) (by norm_num)
      (by norm_num) (by norm_num)).mpr (by norm_num)

/-- Field-wise accumulation step of the renderer's totals loops
(`totals.cost += s.cost; totals.impressions += s.impressions; …`). -/
def addCounters (t s : Counters) : Counters :=
  ⟨t.cost + s.cost, t.impressions + s.impressions,
   t.clicks + s.clicks, t.conversions + s.conversions⟩

/-- The grand-total accumulation loop of `renderSummaryPage` (`main.js` lines
193–200): starting from zeros, add every month's `summary` counters. -/
def summaryTotals (summaries : List Counters) : Counters :=
  summaries.foldl addCounters ⟨0, 0, 0, 0⟩

/-- The daily-totals row loop of `renderWeeklyPage` (`main.js` lines 536–542):
starting from zeros, add every daily record's counters. -/
def dailyTotals (daily : List Counters) : Counters :=
  daily.foldl addCounters ⟨0, 0, 0, 0⟩

/-- A displayed number is derivable in the sense of claim C7 when it is a
value read directly from the Dataset (`vals`) or the result of applying one of
the Metrics Engine functions to values read from the Dataset. -/
def derivableFrom (vals : List ℚ) (x : ℚ) : Prop :=
  x ∈ vals ∨ ∃ a ∈ vals, ∃ b ∈ vals,
    x = calcCTR a b ∨ x = calcCVR a b ∨ x = calcCPC a b ∨ x = calcCPM a b ∨
      x = calcCPA a b ∨ some x = calcChange a (some b) ∨ some x = calcChange a none

theorem foldl_addCounters (l : List Counters) (t : Counters) :
    l.foldl addCounters t =
      ⟨t.cost + (l.map Counters.cost).sum,
       t.impressions + (l.map Counters.impressions).sum,
       t.clicks + (l.map Counters.clicks).sum,
       t.conversions + (l.map Counters.conversions).sum⟩ := by
  induction l generalizing t with
  | nil => simp
  | cons s l ih =>
    simp only [List.foldl_cons, List.map_cons, List.sum_cons, ih, addCounters]
    rw [Counters.mk.injEq]
    refine ⟨by ring, by ring, by ring, by ring⟩

/-- C7 counterexample: on a Dataset with two months whose summaries carry
costs 100 and 200, the summary page displays the grand total 300, a sum the
renderer computes itself — 300 is not a value of the Dataset and not the
result of any Metrics Engine function applied to Dataset values, refuting
"the renderer computes no aggregates of its own". -/
theorem c7_counterexample :
    (summaryTotals [⟨100, 0, 0, 0⟩, ⟨200, 0, 0, 0⟩]).cost = 300 ∧
    ¬ derivableFrom [100, 200, 0] 300 := by
  have e1 : ratFloor (3 / 2) = 1 := ratFloor_eval (by norm_num) (by norm_num)
  have e2 : ratFloor (1 : ℚ) = 1 := ratFloor_eval (by norm_num) (by norm_num)
  have e3 : ratFloor (5 / 2) = 2 := ratFloor_eval (by norm_num) (by norm_num)
  have e4 : ratFloor (1 / 2) = 0 := ratFloor_eval (by norm_num) (by norm_num)
  have e5 : ratFloor (2001 / 2) = 1000 := ratFloor_eval (by norm_num) (by norm_num)
  have e6 : ratFloor (1001 / 2) = 500 := ratFloor_eval (by norm_num) (by norm_num)
  have e7 : ratFloor (4001 / 2) = 2000 := ratFloor_eval (by norm_num) (by norm_num)
  constructor
  · simp only [summaryTotals, List.foldl_cons, List.foldl_nil, addCounters]
    norm_num
  · intro h
    rcases h with h | ⟨a, ha, b, hb, h⟩
    · norm_num at h
    · simp only [List.mem_cons, List.not_mem_nil, or_false] at ha hb
      rcases ha with rfl | rfl | rfl <;> rcases hb with rfl | rfl | rfl <;>
        norm_num [calcCTR, calcCVR, calcCPC, calcCPM, calcCPA, calcChange,
          jsRound, e1, e2, e3, e4, e5, e6, e7] at h <;>
        exact Option.noConfusion h

/-- Association-list lookup, modelling a read `obj[pk]` of a JS object mapping
platform keys to counters (`undefined`, i.e. `none`, when the key is absent). -/
def lookupPlatform : List (String × Counters) → String → Option Counters
  | [], _ => none
  | (k, v) :: rest, pk => if k = pk then some v else lookupPlatform rest pk

/-- One step of the per-platform totals loop of `renderSummaryPage` (`main.js`
lines 224–236): initialise the entry at `pk` to zeros when absent (the
`if (!platformTotals[pk])` branch), then add this month's counters for `pk`. -/
def addPlatformEntry : List (String × Counters) → String → Counters →
    List (String × Counters)
  | [], pk, c => [(pk, addCounters ⟨0, 0, 0, 0⟩ c)]
  | (k, v) :: rest, pk, c =>
    if k = pk then (k, addCounters v c) :: rest
    else (k, v) :: addPlatformEntry rest pk c

/-- The per-platform totals accumulation of `renderSummaryPage` (`main.js`
lines 224–236): over the months in key order, fold every platform entry of
that month into the running totals object (a JS object holds one entry per
platform key). -/
def platformTotals (months : List (List (String × Counters))) :
    List (String × Counters) :=
  months.foldl (fun acc plats =>
    plats.foldl (fun a p => addPlatformEntry a p.1 p.2) acc) []

theorem lookupPlatform_addPlatformEntry_self (acc : List (String × Counters))
    (k : String) (c : Counters) :
    lookupPlatform (addPlatformEntry acc k c) k =
      some (addCounters ((lookupPlatform acc k).getD ⟨0, 0, 0, 0⟩) c) := by
  induction acc with
  | nil => simp [addPlatformEntry, lookupPlatform]
  | cons p rest ih =>
    obtain ⟨j, v⟩ := p
    by_cases h : j = k
    · subst h
      simp [addPlatformEntry, lookupPlatform]
    · simp [addPlatformEntry, lookupPlatform, h, ih]

theorem lookupPlatform_addPlatformEntry_ne (acc : List (String × Counters))
    (k j : String) (c : Counters) (h : j ≠ k) :
    lookupPlatform (addPlatformEntry acc k c) j = lookupPlatform acc j := by
  induction acc with
  | nil => simp [addPlatformEntry, lookupPlatform, Ne.symm h]
  | cons p rest ih =>
    obtain ⟨k', v⟩ := p
    by_cases hk : k' = k
    · subst hk
      simp [addPlatformEntry, lookupPlatform, Ne.symm h]
    · by_cases hj : k' = j
      · subst hj
        simp [addPlatformEntry, lookupPlatform, hk]
      · simp [addPlatformEntry, lookupPlatform, hk, hj, ih]

theorem lookupPlatform_foldl_entries (entries : List (String × Counters))
    (acc : List (String × Counters)) (pk : String) :
    lookupPlatform
        (entries.foldl (fun a p => addPlatformEntry a p.1 p.2) acc) pk =
      match lookupPlatform acc pk with
      | some v =>
        some (((entries.filter fun p => p.1 == pk).map Prod.snd).foldl
          addCounters v)
      | none =>
        if ((entries.filter fun p => p.1 == pk).map Prod.snd).isEmpty then none
        else some (((entries.filter fun p => p.1 == pk).map Prod.snd).foldl
          addCounters ⟨0, 0, 0, 0⟩) := by
  induction entries generalizing acc with
  | nil => cases h : lookupPlatform acc pk <;> simp [h]
  | cons p rest ih =>
    obtain ⟨k, c⟩ := p
    by_cases hk : k = pk
    · subst hk
      rw [List.foldl_cons, ih (addPlatformEntry acc k c),
        lookupPlatform_addPlatformEntry_self]
      cases h : lookupPlatform acc k <;>
        simp [h, List.filter_cons]
    · rw [List.foldl_cons, ih (addPlatformEntry acc k c),
        lookupPlatform_addPlatformEntry_ne acc k pk c (fun he => hk he.symm)]
      have hbeq : (k == pk) = false := beq_eq_false_iff_ne.mpr hk
      have hfilter : List.filter (fun p => p.1 == pk) ((k, c) :: rest) =
          List.filter (fun p => p.1 == pk) rest := by
        rw [List.filter_cons]
        simp [hbeq]
      rw [hfilter]

/-- C7 amended: contrary to "computes no aggregates of its own", the renderer
does compute its own sums — `renderSummaryPage` accumulates grand totals over
the month summaries and per-platform totals across months, and
`renderWeeklyPage` accumulates a daily totals row — and each of these
displayed totals equals the element-wise sum of the corresponding Dataset
counters. -/
theorem c7_amended_renderer_computes_sums :
    (∀ l : List Counters,
      summaryTotals l =
        ⟨(l.map Counters.cost).sum, (l.map Counters.impressions).sum,
         (l.map Counters.clicks).sum, (l.map Counters.conversions).sum⟩) ∧
    (∀ l : List Counters,
      dailyTotals l =
        ⟨(l.map Counters.cost).sum, (l.map Counters.impressions).sum,
         (l.map Counters.clicks).sum, (l.map Counters.conversions).sum⟩) ∧
    (∀ (months : List (List (String × Counters))) (pk : String),
      lookupPlatform (platformTotals months) pk =
        if ((months.flatten.filter fun p => p.1 == pk).map Prod.snd).isEmpty
        then none
        else some
          ⟨(((months.flatten.filter fun p => p.1 == pk).map Prod.snd).map
              Counters.cost).sum,
           (((months.flatten.filter fun p => p.1 == pk).map Prod.snd).map
              Counters.impressions).sum,
           (((months.flatten.filter fun p => p.1 == pk).map Prod.snd).map
              Counters.clicks).sum,
           (((months.flatten.filter fun p => p.1 == pk).map Prod.snd).map
              Counters.conversions).sum⟩) := by
  refine ⟨?_, ?_, ?_⟩
  · intro l
    simp [summaryTotals, foldl_addCounters]
  · intro l
    simp [dailyTotals, foldl_addCounters]
  · intro months pk
    rw [platformTotals, ← List.foldl_flatten, lookupPlatform_foldl_entries]
    simp only [lookupPlatform]
    split_ifs with h
    · rfl
    · rw [foldl_addCounters]
      simp

/-- JavaScript numbers including the non-finite results of unguarded
arithmetic: finite values, the two infinities, and `NaN`. -/
inductive JSNum where
  | fin : ℚ → JSNum
  | posInf : JSNum
  | negInf : JSNum
  | nan : JSNum
deriving DecidableEq

/-- JavaScript division on `JSNum` (64-bit float edge behaviour for zero
divisors: `0/0 = NaN`, `x/0 = ±Infinity` for `x ≠ 0`). -/
def jsDivNum : JSNum → JSNum → JSNum
  | .nan, _ => .nan
  | _, .nan => .nan
  | .fin a, .fin b =>
    if b = 0 then (if a = 0 then .nan else if 0 < a then .posInf else .negInf)
    else .fin (a / b)
  | .fin _, .posInf => .fin 0
  | .fin _, .negInf => .fin 0
  | .posInf, .fin b => if 0 ≤ b then .posInf else .negInf
  | .negInf, .fin b => if 0 ≤ b then .negInf else .posInf
  | .posInf, .posInf => .nan
  | .posInf, .negInf => .nan
  | .negInf, .posInf => .nan
  | .negInf, .negInf => .nan

/-- JavaScript multiplication on `JSNum` (`0 * Infinity = NaN`). -/
def jsMulNum : JSNum → JSNum → JSNum
  | .nan, _ => .nan
  | _, .nan => .nan
  | .fin a, .fin b => .fin (a * b)
  | .fin a, .posInf => if a = 0 then .nan else if 0 < a then .posInf else .negInf
  | .fin a, .negInf => if a = 0 then .nan else if 0 < a then .negInf else .posInf
  | .posInf, .fin b => if b = 0 then .nan else if 0 < b then .posInf else .negInf
  | .negInf, .fin b => if b = 0 then .nan else if 0 < b then .negInf else .posInf
  | .posInf, .posInf => .posInf
  | .posInf, .negInf => .negInf
  | .negInf, .posInf => .negInf
  | .negInf, .negInf => .posInf

/-- `Math.round` on `JSNum`: `NaN` and the infinities pass through. -/
def jsRoundNum : JSNum → JSNum
  | .fin q => .fin (jsRound q : ℚ)
  | x => x

/-- The percentage computed by the platform doughnut chart's tooltip callback
in `initPlatformChart` (`charts.js`): `total` is the unguarded
`reduce((a, b) => a + b, 0)` over the dataset and the percentage is
`Math.round((value / total) * 100)`. -/
def doughnutTooltipPct (value : ℚ) (data : List ℚ) : JSNum :=
  jsRoundNum (jsMulNum (jsDivNum (.fin value) (.fin (data.foldl (· + ·) 0)))
    (.fin 100))

/-- C10: the doughnut tooltip's percentage is an unguarded division — with all
four platform cost values zero the dataset total is `0`, the hovered value is
`0`, and the computed percentage is `NaN`, unlike the Metrics Engine functions
which return `0` on a zero denominator. -/
theorem c10_tooltip_unguarded_division :
    doughnutTooltipPct 0 [0, 0, 0, 0] = .nan ∧
    calcCTR 0 0 = 0 ∧ calcCVR 0 0 = 0 ∧ calcCPC 0 0 = 0 ∧ calcCPM 0 0 = 0 ∧
    calcCPA 0 0 = 0 := by
  refine ⟨?_, ?_, ?_, ?_, ?_, ?_⟩
  · have htot : ([(0 : ℚ), 0, 0, 0].foldl (· + ·) 0) = 0 := by norm_num
    simp only [doughnutTooltipPct, htot, jsDivNum, jsMulNum, jsRoundNum]
    norm_num
  all_goals simp [calcCTR, calcCVR, calcCPC, calcCPM, calcCPA]

/-- C3: `calcChange` returns `null` (`none`), not zero, when the previous value
is zero or absent, and computes `(current - previous)/previous * 100` otherwise. -/
theorem c3_change_null_baseline :
    (∀ current : ℚ, calcChange current none = none) ∧
    (∀ current : ℚ, calcChange current (some 0) = none) ∧
    (∀ current p : ℚ, p ≠ 0 →
      calcChange current (some p) = some ((current - p) / p * 100)) := by
  refine ⟨fun _ => rfl, fun _ => by simp [calcChange], ?_⟩
  intro cur p h
  simp [calcChange, h]

/-- Closed-form instance of `c3_change_null_baseline` at a concrete input. -/
theorem c3_change_null_baseline_witness :
    calcChange 150 (some 100) = some 50 := by
  rw [c3_change_null_baseline.2.2 150 100 (by norm_num)]
  norm_num

end AdReport
